import Mathlib

set_option maxHeartbeats 1000000

/-!
Verification of the ST7735 display-controller emulator (src/src/main.c).

The register state machine, command parser and pixel writer are embedded
shallowly: machine integers become `Nat` with an explicit `% 2^32` (resp.
`% 2^16`) wherever the C code's unsigned arithmetic can wrap, framebuffer
writes (`buffer_write`) and parameter-buffer stores are collected as traces,
and the SPI transport is abstracted to a list of delivered byte chunks plus
mode-line and reset-line events, exactly as `chip_pin_change` routes them.
-/

/-- Modulus of the 32-bit unsigned arithmetic used by the C code. -/
def U32 : Nat := 4294967296

/-- Mirrors `chip_mode_t`: `MODE_COMMAND` / `MODE_DATA`, tracking the DC
line level (main.c lines 5-8). -/
inductive Mode where
  | command : Mode
  | data : Mode
deriving DecidableEq, Repr

/-- Register part of `chip_state_t` (main.c lines 10-38).  Pin handles, the
SPI handle and the framebuffer handle live outside the modelled state; the
16-byte `command_buf` array is modelled as a function from index to the
stored byte.  Field values are `Nat`; the C fields are `uint8_t`/`uint32_t`,
so theorems add explicit range hypotheses where the width matters. -/
structure Chip where
  mode : Mode
  command_code : Nat
  command_size : Nat
  command_index : Nat
  command_buf : Nat → Nat
  ram_write : Bool
  active_column : Nat
  column_start : Nat
  column_end : Nat
  active_row : Nat
  row_start : Nat
  row_end : Nat
  scanning_direction : Nat
  width : Nat
  height : Nat

/-- `chip_reset` (main.c lines 58-67). -/
def chip_reset (s : Chip) : Chip :=
  { s with ram_write := false, active_column := 0, column_start := 0,
           column_end := 127, active_row := 0, row_start := 0, row_end := 35 }

/-- `rgb565_to_rgba` (main.c lines 104-109). -/
def rgb565_to_rgba (value : Nat) : Nat :=
  0xff000000 ||| ((value &&& 0x001f) <<< 19) ||| ((value &&& 0x07e0) <<< 5)
    ||| ((value &&& 0xf800) >>> 8)

/-- `command_args_size` (main.c lines 142-149). -/
def command_args_size (command_code : Nat) : Nat :=
  if command_code = 0x36 then 1
  else if command_code = 0x2a ∨ command_code = 0x2b then 4
  else 0

/-- `execute_command` (main.c lines 151-183).  The two `uint16_t` argument
assignments truncate with `% 65536`; the unknown-command branch only prints
a warning, so it is the identity on the register state. -/
def execute_command (s : Chip) : Chip :=
  if s.command_code = 0x2c then { s with ram_write := true }
  else if s.command_code = 0x36 then
    { s with scanning_direction := s.command_buf 0 &&& 0xfc }
  else if s.command_code = 0x2a ∨ s.command_code = 0x2b then
    let arg0 := ((s.command_buf 0 <<< 8) ||| s.command_buf 1) % 65536
    let arg2 := ((s.command_buf 2 <<< 8) ||| s.command_buf 3) % 65536
    let set_row : Bool := s.command_code == 0x2b
    if (if s.scanning_direction &&& 0x20 ≠ 0 then !set_row else set_row) then
      { s with active_row := arg0, row_start := arg0, row_end := arg2 }
    else
      { s with active_column := arg0, column_start := arg0, column_end := arg2 }
  else s

/-- One iteration of the `process_command` loop body (main.c lines 187-193):
the byte becomes the new command code, its argument count is looked up, the
argument index restarts at 0, and a zero-argument command executes at once. -/
def pcStep (s : Chip) (b : Nat) : Chip :=
  let s' := { s with command_code := b, command_size := command_args_size b,
                     command_index := 0 }
  if s'.command_size = 0 then execute_command s' else s'

/-- `process_command` (main.c lines 185-195). -/
def process_command (bs : List Nat) (s : Chip) : Chip :=
  List.foldl pcStep { s with ram_write := false } bs

/-- One iteration of the `process_command_args` loop body (main.c lines
198-204), also recording the parameter-buffer store index used. -/
def pcaStep (acc : Chip × List Nat) (b : Nat) : Chip × List Nat :=
  let s := acc.1
  if s.command_index < s.command_size then
    let s' := { s with command_buf := Function.update s.command_buf s.command_index b,
                       command_index := s.command_index + 1 }
    (if s'.command_size = s'.command_index then execute_command s' else s',
     acc.2 ++ [s.command_index])
  else acc

/-- `process_command_args` (main.c lines 197-206): final state plus the list
of parameter-buffer store indices. -/
def process_command_args (bs : List Nat) (s : Chip) : Chip × List Nat :=
  List.foldl pcaStep (s, []) bs

/-- Bit test `scanning_direction & SCAN_MV` (main.c line 53). -/
def scanMV (s : Chip) : Bool := s.scanning_direction &&& 0x20 != 0

/-- Bit test `scanning_direction & SCAN_MX` (main.c line 52). -/
def scanMX (s : Chip) : Bool := s.scanning_direction &&& 0x40 != 0

/-- Bit test `scanning_direction & SCAN_MY` (main.c line 51). -/
def scanMY (s : Chip) : Bool := s.scanning_direction &&& 0x80 != 0

/-- The C expression `w - 1 - v` evaluated in 32-bit unsigned arithmetic. -/
def mir32 (w v : Nat) : Nat := (w + (U32 - 1 - v % U32)) % U32

/-- Sink x-coordinate of the pixel write (main.c lines 212-220). -/
def sink_x (s : Chip) : Nat :=
  if scanMV s then
    (if scanMX s then mir32 s.width s.active_column else s.active_column)
  else
    (if scanMY s then mir32 s.width s.active_column else s.active_column)

/-- Sink y-coordinate of the pixel write (main.c lines 212-220). -/
def sink_y (s : Chip) : Nat :=
  if scanMV s then
    (if scanMY s then mir32 s.height s.active_row else s.active_row)
  else
    (if scanMX s then mir32 s.height s.active_row else s.active_row)

/-- Byte offset handed to `buffer_write` (main.c lines 223-224), evaluated
in 32-bit unsigned arithmetic: `pix_index = y * width + x` then
`pix_index * sizeof(color)`. -/
def pix_offset (s : Chip) : Nat :=
  ((sink_y s * s.width + sink_x s) % U32 * 4) % U32

/-- Cursor advancement after one sample (main.c lines 226-244). -/
def advance_cursor (s : Chip) : Chip :=
  if scanMV s then
    let r := (s.active_row + 1) % U32
    if s.row_end < r then
      let c := (s.active_column + 1) % U32
      if s.column_end < c then
        { s with active_row := s.row_start, active_column := s.column_start }
      else { s with active_row := s.row_start, active_column := c }
    else { s with active_row := r }
  else
    let c := (s.active_column + 1) % U32
    if s.column_end < c then
      let r := (s.active_row + 1) % U32
      if s.row_end < r then
        { s with active_column := s.column_start, active_row := s.row_start }
      else { s with active_column := s.column_start, active_row := r }
    else { s with active_column := c }

/-- One iteration of the `process_data` loop (main.c lines 211-244): record
the framebuffer write (byte offset, converted RGBA sample), then advance the
cursor. -/
def pdStep (acc : Chip × List (Nat × Nat)) (sample : Nat) : Chip × List (Nat × Nat) :=
  (advance_cursor acc.1, acc.2 ++ [(pix_offset acc.1, rgb565_to_rgba sample)])

/-- `process_data` (main.c lines 208-246) on a list of 16-bit samples:
final state plus the framebuffer write trace. -/
def process_data (samples : List Nat) (s : Chip) : Chip × List (Nat × Nat) :=
  List.foldl pdStep (s, []) samples

/-- Reinterpretation of the received byte buffer as 16-bit samples
(main.c line 257: `(const uint16_t*)buffer` with `count / 2` samples on the
little-endian wasm host; an odd trailing byte is dropped). -/
def to_samples : List Nat → List Nat
  | lo :: hi :: rest => (lo + hi * 256) :: to_samples rest
  | _ => []

/-- `chip_spi_done` (main.c lines 248-270): dispatch of one delivered chunk.
Returns the new state, the framebuffer write trace and the parameter-buffer
store-index trace.  A zero-byte completion (from `spi_stop`) returns
immediately. -/
def chip_spi_done (bs : List Nat) (s : Chip) : Chip × List (Nat × Nat) × List Nat :=
  if bs = [] then (s, [], [])
  else
    match s.mode with
    | Mode.data =>
      if s.ram_write then
        let r := process_data (to_samples bs) s
        (r.1, r.2, [])
      else
        let r := process_command_args bs s
        (r.1, [], r.2)
    | Mode.command => (process_command bs s, [], [])

/-- External events routed by `chip_pin_change` (main.c lines 111-140) and
the SPI transport: a delivered chunk, a DC-line mode switch (which flushes
the in-flight transfer and just records the new mode), and a reset-line
activation (which flushes and calls `chip_reset`). -/
inductive Ev where
  | chunk (bs : List Nat) : Ev
  | setMode (m : Mode) : Ev
  | reset : Ev

/-- Observable system state: chip registers plus the accumulated framebuffer
write trace and parameter-buffer store-index trace. -/
structure Sys where
  chip : Chip
  fb : List (Nat × Nat)
  stores : List Nat

/-- One external event step. -/
def evStep (st : Sys) (e : Ev) : Sys :=
  match e with
  | Ev.chunk bs =>
    let r := chip_spi_done bs st.chip
    { chip := r.1, fb := st.fb ++ r.2.1, stores := st.stores ++ r.2.2 }
  | Ev.setMode m => { st with chip := { st.chip with mode := m } }
  | Ev.reset => { st with chip := chip_reset st.chip }

/-- A whole event sequence, starting with empty traces. -/
def run_events (es : List Ev) (s : Chip) : Sys :=
  List.foldl evStep { chip := s, fb := [], stores := [] } es

/-- `chip_init` (main.c lines 69-101): a freshly allocated state (zeroed, as
on the wasm target where fresh pages are zero-initialized; `chip_init`
itself writes none of the command-machine fields) followed by `chip_reset`;
`width` and `height` come from `framebuffer_init`. -/
def chip_init (w h : Nat) : Chip :=
  chip_reset
    { mode := Mode.command, command_code := 0, command_size := 0,
      command_index := 0, command_buf := fun _ => 0, ram_write := false,
      active_column := 0, column_start := 0, column_end := 0, active_row := 0,
      row_start := 0, row_end := 0, scanning_direction := 0, width := w,
      height := h }

/-- Width of the addressing window (inclusive bounds). -/
def win_w (s : Chip) : Nat := s.column_end - s.column_start + 1

/-- Height of the addressing window (inclusive bounds). -/
def win_h (s : Chip) : Nat := s.row_end - s.row_start + 1

/-- Area of the addressing window. -/
def win_area (s : Chip) : Nat := win_w s * win_h s

/-- Column of the k-th raster position of the window in scan order (the row
is the fast axis when swap-axes is set, the column otherwise). -/
def raster_col (s : Chip) (k : Nat) : Nat :=
  if scanMV s then s.column_start + k / win_h s
  else s.column_start + k % win_w s

/-- Row of the k-th raster position of the window in scan order. -/
def raster_row (s : Chip) (k : Nat) : Nat :=
  if scanMV s then s.row_start + k % win_h s
  else s.row_start + k / win_w s

/-- Raster index of the current cursor inside the window. -/
def raster_idx (s : Chip) : Nat :=
  if scanMV s then
    (s.active_column - s.column_start) * win_h s + (s.active_row - s.row_start)
  else
    (s.active_row - s.row_start) * win_w s + (s.active_column - s.column_start)

/-- The cursor lies inside the addressing window. -/
def in_window (s : Chip) : Prop :=
  s.column_start ≤ s.active_column ∧ s.active_column ≤ s.column_end ∧
  s.row_start ≤ s.active_row ∧ s.active_row ≤ s.row_end

instance (s : Chip) : Decidable (in_window s) := by
  unfold in_window
  exact inferInstance

/-- Register state named by the spec: cursor, window, orientation and the
ram-write flag. -/
def regs (s : Chip) : Nat × Nat × Nat × Nat × Nat × Nat × Nat × Bool :=
  (s.active_column, s.column_start, s.column_end, s.active_row, s.row_start,
   s.row_end, s.scanning_direction, s.ram_write)

/-- Concrete 128x160 chip as initialized by `chip_init`. -/
def base_chip : Chip := chip_init 128 160

/-- Concrete chip over a 10x10 surface. -/
def chip_w10 : Chip := chip_init 10 10

/-- Concrete chip with a Column-Address-Set accumulation in progress
(2 of 4 argument bytes received). -/
def pending_chip : Chip :=
  { base_chip with command_code := 0x2a, command_size := 4, command_index := 2 }

/-- Concrete chip with a 2x1 window (columns 0..1, row 0), swap-axes clear,
cursor at column 1 (raster index 1). -/
def c6_chip : Chip :=
  { base_chip with column_start := 0, column_end := 1, row_start := 0,
                   row_end := 0, active_column := 1, active_row := 0,
                   scanning_direction := 0 }

/-- Concrete chip for the C5 witness: swap-axes set, pending Row-Address-Set
arguments 0x0005 and 0x0009 in the parameter buffer. -/
def c5w_chip : Chip :=
  { base_chip with command_code := 43, scanning_direction := 32,
                   command_buf := fun j => if j = 1 then 5 else if j = 3 then 9 else 0 }

/-- State with the command state-machine fields replaced (used to show the
results are independent of a pending accumulation). -/
def set_pending (s : Chip) (code size index : Nat) : Chip :=
  { s with command_code := code, command_size := size, command_index := index }

/-- Generic advance on a (fast, slow) coordinate pair, as performed by
`process_data` after each sample. -/
def adv2 (fs f fe ss sv se : Nat) : Nat × Nat :=
  let f' := (f + 1) % U32
  if fe < f' then
    let s' := (sv + 1) % U32
    (fs, if se < s' then ss else s')
  else (f', sv)

/-- Concrete chip for the C6 witness: a 2x2 window at the origin, swap-axes
clear, cursor at the window origin. -/
def c6w_chip : Chip :=
  { base_chip with column_start := 0, column_end := 1, row_start := 0,
                   row_end := 1, active_column := 0, active_row := 0,
                   scanning_direction := 0 }

/-- Concrete chip for the C7 witness: all three orientation flags set
(0xE0), cursor at column 3, row 4 on the 128x160 surface. -/
def c7w_chip : Chip :=
  { base_chip with scanning_direction := 224, active_column := 3, active_row := 4 }

/-- State with only the received-argument index replaced. -/
def set_index (s : Chip) (i : Nat) : Chip := { s with command_index := i }

/-- Safety invariant of the command accumulator: the received-argument index
never exceeds the expected count, which is at most 4. -/
def ChipInv (s : Chip) : Prop :=
  s.command_index ≤ s.command_size ∧ s.command_size ≤ 4

/-! ### Bit-arithmetic helpers for the colour conversion -/

/-- Masking with a value below `2 ^ n` only sees the low `n` bits. -/
theorem and_small (x y n : Nat) (hy : y < 2 ^ n) : x &&& y = x % 2 ^ n &&& y := by
  conv_lhs => rw [← Nat.and_pow_two_sub_one_of_lt_two_pow hy,
    Nat.and_comm y (2 ^ n - 1), ← Nat.and_assoc, Nat.and_pow_two_sub_one_eq_mod]

/-- Blue mask: the low 5 bits of a decomposed 5-6-5 sample. -/
theorem mask_blue (r g b : Nat) (hb : b < 32) :
    (r * 2048 + g * 32 + b) &&& 31 = b := by
  have h := Nat.and_pow_two_sub_one_eq_mod (r * 2048 + g * 32 + b) 5
  norm_num at h
  omega

/-- Green mask: bits 5-10 of a decomposed 5-6-5 sample. -/
theorem mask_green (r g b : Nat) (hg : g < 64) (hb : b < 32) :
    (r * 2048 + g * 32 + b) &&& 2016 = g * 32 := by
  have hlow : (r * 2048 + g * 32 + b) % 2 ^ 11 = g * 32 + b := by
    have : r * 2048 + g * 32 + b = 2048 * r + (g * 32 + b) := by ring
    omega
  rw [and_small _ 2016 11 (by norm_num), hlow]
  have hsplit : g * 32 + b = 2 ^ 5 * g + b := by ring
  rw [hsplit, Nat.mul_add_lt_is_or (by omega) g, Nat.and_distrib_right]
  have hb0 : b &&& 2016 = 0 := by
    rw [Nat.and_comm, and_small 2016 b 5 (by omega)]
    norm_num
  have hg2 : 2 ^ 5 * g &&& 2016 = 2 ^ 5 * g := by
    have hlt : 2 ^ 5 * g < 2 ^ 11 := by omega
    have h1 := Nat.and_pow_two_sub_one_of_lt_two_pow hlt
    have h2 : (2 : Nat) ^ 11 - 1 = 2016 ||| 31 := by decide
    rw [h2, Nat.and_or_distrib_left] at h1
    have h3 : 2 ^ 5 * g &&& 31 = 0 := by
      have := Nat.and_pow_two_sub_one_eq_mod (2 ^ 5 * g) 5
      norm_num at this ⊢
      omega
    rw [h3, Nat.or_zero] at h1
    exact h1
  rw [hb0, hg2, Nat.or_zero]
  ring

/-- Red mask: bits 11-15 of a decomposed 5-6-5 sample. -/
theorem mask_red (r g b : Nat) (hr : r < 32) (hg : g < 64) (hb : b < 32) :
    (r * 2048 + g * 32 + b) &&& 63488 = r * 2048 := by
  have hsplit : r * 2048 + g * 32 + b = 2 ^ 11 * r + (g * 32 + b) := by ring
  rw [hsplit, Nat.mul_add_lt_is_or (by omega) r, Nat.and_distrib_right]
  have hlow0 : (g * 32 + b) &&& 63488 = 0 := by
    rw [Nat.and_comm, and_small 63488 (g * 32 + b) 11 (by omega)]
    norm_num
  have hr2 : 2 ^ 11 * r &&& 63488 = 2 ^ 11 * r := by
    have hlt : 2 ^ 11 * r < 2 ^ 16 := by omega
    have h1 := Nat.and_pow_two_sub_one_of_lt_two_pow hlt
    have h2 : (2 : Nat) ^ 16 - 1 = 63488 ||| 2047 := by decide
    rw [h2, Nat.and_or_distrib_left] at h1
    have h3 : 2 ^ 11 * r &&& 2047 = 0 := by
      have := Nat.and_pow_two_sub_one_eq_mod (2 ^ 11 * r) 11
      norm_num at this ⊢
      omega
    rw [h3, Nat.or_zero] at h1
    exact h1
  rw [hlow0, hr2, Nat.or_zero]
  ring

/-- Closed arithmetic form of the RGB565 to RGBA conversion on a decomposed
5-6-5 input: alpha 0xFF in bits 24-31, blue in bits 16-23, green in bits
8-15, red in bits 0-7, each channel top-aligned by shift. -/
theorem rgb565_closed (r g b : Nat) (hr : r < 32) (hg : g < 64) (hb : b < 32) :
    rgb565_to_rgba (r * 2048 + g * 32 + b)
      = 4278190080 + b * 524288 + g * 1024 + r * 8 := by
  unfold rgb565_to_rgba
  rw [show (0x001f : Nat) = 31 from rfl, show (0x07e0 : Nat) = 2016 from rfl,
      show (0xf800 : Nat) = 63488 from rfl,
      mask_blue r g b hb, mask_green r g b hg hb, mask_red r g b hr hg hb,
      Nat.shiftLeft_eq, Nat.shiftLeft_eq, Nat.shiftRight_eq_div_pow]
  have hshr : r * 2048 / 2 ^ 8 = r * 8 := by omega
  have hshl1 : b * 2 ^ 19 = b * 524288 := by norm_num
  have hshl2 : g * 32 * 2 ^ 5 = g * 1024 := by ring
  rw [hshr, hshl1, hshl2]
  have e1 : (0xff000000 : Nat) ||| b * 524288 = 4278190080 + b * 524288 := by
    have h := Nat.mul_add_lt_is_or (show b * 524288 < 2 ^ 24 by omega) 255
    norm_num at h
    rw [show (0xff000000 : Nat) = 4278190080 from rfl, ← h]
  have e2 : 4278190080 + b * 524288 ||| g * 1024
      = 4278190080 + b * 524288 + g * 1024 := by
    have h := Nat.mul_add_lt_is_or (show g * 1024 < 2 ^ 16 by omega) (65280 + b * 8)
    have hfac : 2 ^ 16 * (65280 + b * 8) = 4278190080 + b * 524288 := by ring
    rw [hfac] at h
    rw [← h]
  have e3 : 4278190080 + b * 524288 + g * 1024 ||| r * 8
      = 4278190080 + b * 524288 + g * 1024 + r * 8 := by
    have h := Nat.mul_add_lt_is_or (show r * 8 < 2 ^ 8 by omega)
      (16711680 + b * 2048 + g * 4)
    have hfac : 2 ^ 8 * (16711680 + b * 2048 + g * 4)
        = 4278190080 + b * 524288 + g * 1024 := by ring
    rw [hfac] at h
    rw [← h]
  rw [e1, e2, e3]


/-! ### Frame lemmas -/

/-- Command execution never touches the mode, the command state machine
fields, the parameter buffer or the surface dimensions. -/
theorem execute_frame (s : Chip) :
    (execute_command s).mode = s.mode ∧
    (execute_command s).command_code = s.command_code ∧
    (execute_command s).command_size = s.command_size ∧
    (execute_command s).command_index = s.command_index ∧
    (execute_command s).command_buf = s.command_buf ∧
    (execute_command s).width = s.width ∧
    (execute_command s).height = s.height := by
  unfold execute_command
  split_ifs <;> simp
  all_goals split_ifs <;> simp

/-! ### Claim C1 -/

/-- Claim C1 counterexample: the claim places the red channel (top 5 bits of
the sample) in bits 16-23 of the output.  At the red-only input 0xF800 the
code leaves bits 16-23 equal to 0 and instead produces 0xFF0000F8, putting
the red field in bits 0-7. -/
theorem c1_counterexample :
    rgb565_to_rgba 63488 = 4278190328 ∧
    rgb565_to_rgba 63488 / 65536 % 256 = 0 ∧
    63488 / 2048 * 8 = 248 ∧ (0 : Nat) ≠ 248 := by decide

/-- Claim C1 (amended): for every 16-bit sample the conversion sets alpha
bits 24-31 to 0xFF, puts the top 5 bits (red) top-aligned into bits 0-7,
the middle 6 bits (green) into bits 8-15 and the bottom 5 bits (blue) into
bits 16-23 (RGBA byte order read from the little-endian 32-bit value); the
boundary values 0x0000, 0xF800, 0x07E0, 0x001F convert to the
all-zero-colour, red-only, green-only and blue-only RGBA values under that
shift formula. -/
theorem c1_rgb565_channels : ∀ v, v < 65536 →
    rgb565_to_rgba v / 16777216 = 255 ∧
    rgb565_to_rgba v % 256 = v / 2048 * 8 ∧
    rgb565_to_rgba v / 256 % 256 = v / 32 % 64 * 4 ∧
    rgb565_to_rgba v / 65536 % 256 = v % 32 * 8 ∧
    rgb565_to_rgba 0 = 4278190080 ∧
    rgb565_to_rgba 63488 = 4278190328 ∧
    rgb565_to_rgba 2016 = 4278254592 ∧
    rgb565_to_rgba 31 = 4294443008 := by
  intro v hv
  have hdec : v = v / 2048 * 2048 + v / 32 % 64 * 32 + v % 32 := by omega
  have hc := rgb565_closed (v / 2048) (v / 32 % 64) (v % 32)
    (by omega) (by omega) (by omega)
  rw [← hdec] at hc
  have h1 : rgb565_to_rgba v / 256 = 16711680 + v % 32 * 2048 + v / 32 % 64 * 4 := by
    omega
  have h2 : rgb565_to_rgba v / 65536 = 65280 + v % 32 * 8 := by
    omega
  refine ⟨by omega, by omega, ?_, ?_, by decide, by decide, by decide, by decide⟩
  · rw [h1]; omega
  · rw [h2]; omega

/-- Witness for claim C1's theorem at the concrete sample 0x1234. -/
theorem c1_witness : (4660 : Nat) < 65536 ∧
    (rgb565_to_rgba 4660 / 16777216 = 255 ∧
     rgb565_to_rgba 4660 % 256 = 4660 / 2048 * 8 ∧
     rgb565_to_rgba 4660 / 256 % 256 = 4660 / 32 % 64 * 4 ∧
     rgb565_to_rgba 4660 / 65536 % 256 = 4660 % 32 * 8 ∧
     rgb565_to_rgba 0 = 4278190080 ∧
     rgb565_to_rgba 63488 = 4278190328 ∧
     rgb565_to_rgba 2016 = 4278254592 ∧
     rgb565_to_rgba 31 = 4294443008) :=
  ⟨by decide, c1_rgb565_channels 4660 (by decide)⟩

/-! ### Claim C2 -/

/-- Claim C2 counterexample: the claim says the column window extends to the
full surface width minus one for every surface width; `chip_reset` always
writes the constant 127, so on a width-10 surface the window end is 127, not
9. -/
theorem c2_counterexample :
    (chip_reset chip_w10).column_end = 127 ∧ chip_w10.width = 10 ∧
    (chip_reset chip_w10).column_end ≠ chip_w10.width - 1 := by decide

/-- Claim C2 (amended): after `chip_reset` the ram-write flag is false, the
cursor is at column 0, row 0, the column window is the constant range 0..127
(equal to the full surface width minus one only for the standard 128-wide
surface), and the row window is the default partial range 0..35, pending the
first real Row-Address-Set. -/
theorem c2_reset_registers (s : Chip) :
    (chip_reset s).ram_write = false ∧ (chip_reset s).active_column = 0 ∧
    (chip_reset s).column_start = 0 ∧ (chip_reset s).column_end = 127 ∧
    (chip_reset s).active_row = 0 ∧ (chip_reset s).row_start = 0 ∧
    (chip_reset s).row_end = 35 :=
  ⟨rfl, rfl, rfl, rfl, rfl, rfl, rfl⟩

/-! ### Claim C3 -/

/-- Claim C3 counterexample: the claim says a reset-line activation
(`chip_reset`) clears an in-progress parameter accumulation; on a state with
2 of 4 argument bytes received, `chip_reset` leaves `command_index = 2` and
`command_size = 4`, so the accumulation survives. -/
theorem c3_counterexample :
    pending_chip.command_index = 2 ∧ pending_chip.command_size = 4 ∧
    (chip_reset pending_chip).command_index = 2 ∧
    (chip_reset pending_chip).command_size = 4 ∧
    (chip_reset pending_chip).command_index ≠ 0 := by decide

/-- Claim C3 (amended): a transport-level stop/restart with no further bytes
delivered (a zero-byte completion) leaves the whole state unchanged; a new
command byte arriving in command mode silently discards any in-progress
accumulation (the result is independent of the pending code, size and
index, and the argument index restarts at 0); a reset-line activation
(`chip_reset`) does NOT clear the pending accumulation - it leaves the
command code, expected count and received-argument index untouched. -/
theorem c3_accumulation_lifecycle (s : Chip) (c n i b : Nat) (bs : List Nat) :
    chip_spi_done [] s = (s, [], []) ∧
    process_command (b :: bs)
        { s with command_code := c, command_size := n, command_index := i }
      = process_command (b :: bs) s ∧
    (process_command [b] s).command_index = 0 ∧
    (chip_reset s).command_code = s.command_code ∧
    (chip_reset s).command_size = s.command_size ∧
    (chip_reset s).command_index = s.command_index := by
  refine ⟨rfl, rfl, ?_, rfl, rfl, rfl⟩
  show (pcStep { s with ram_write := false } b).command_index = 0
  simp only [pcStep]
  split
  · exact (execute_frame _).2.2.2.1
  · rfl

/-! ### Claim C5 -/

/-- Big-endian byte pair as a 16-bit value. -/
theorem byte_pair (a c : Nat) (ha : a < 256) (hc : c < 256) :
    ((a <<< 8) ||| c) % 65536 = a * 256 + c := by
  rw [Nat.shiftLeft_eq]
  have h := Nat.mul_add_lt_is_or (show c < 2 ^ 8 by omega) a
  rw [Nat.mul_comm a (2 ^ 8), ← h]
  have hlt : 2 ^ 8 * a + c < 65536 := by omega
  rw [Nat.mod_eq_of_lt hlt]

/-- Characterization of Column/Row-Address-Set execution: the updated axis
is the column exactly when the swap-axes flag agrees with the command being
Row-Address-Set. -/
theorem execute_window (s : Chip)
    (hcode : s.command_code = 42 ∨ s.command_code = 43) :
    execute_command s =
      if scanMV s = (s.command_code == 43) then
        { s with active_column := ((s.command_buf 0 <<< 8) ||| s.command_buf 1) % 65536,
                 column_start := ((s.command_buf 0 <<< 8) ||| s.command_buf 1) % 65536,
                 column_end := ((s.command_buf 2 <<< 8) ||| s.command_buf 3) % 65536 }
      else
        { s with active_row := ((s.command_buf 0 <<< 8) ||| s.command_buf 1) % 65536,
                 row_start := ((s.command_buf 0 <<< 8) ||| s.command_buf 1) % 65536,
                 row_end := ((s.command_buf 2 <<< 8) ||| s.command_buf 3) % 65536 } := by
  have h44 : s.command_code ≠ 44 := by omega
  have h54 : s.command_code ≠ 54 := by omega
  unfold execute_command
  rw [if_neg h44, if_neg h54, if_pos hcode]
  by_cases hmv : s.scanning_direction &&& 32 = 0 <;>
    by_cases h43 : s.command_code = 43
  · have hb : scanMV s = false := by simp [scanMV, hmv]
    have hcb : (s.command_code == 43) = true := by simp [h43]
    simp [hmv, h43, hb, hcb]
  · have hb : scanMV s = false := by simp [scanMV, hmv]
    have hcb : (s.command_code == 43) = false := by simp [h43]
    simp [hmv, h43, hb, hcb]
  · have hb : scanMV s = true := by
      simp only [scanMV]
      simpa [bne_iff_ne] using hmv
    have hcb : (s.command_code == 43) = true := by simp [h43]
    simp [hmv, h43, hb, hcb]
  · have hb : scanMV s = true := by
      simp only [scanMV]
      simpa [bne_iff_ne] using hmv
    have hcb : (s.command_code == 43) = false := by simp [h43]
    simp [hmv, h43, hb, hcb]

/-- Claim C5: Column-Address-Set (0x2A = 42) and Row-Address-Set (0x2B = 43)
take two big-endian 16-bit arguments (start, end) and update exactly one
axis, chosen by the current swap-axes flag: with swap-axes set,
Row-Address-Set updates the column window and Column-Address-Set the row
window; with swap-axes clear each command updates its nominal axis.  The
updated axis gets cursor = start and window bounds {start, end}; the other
axis, the orientation register and the ram-write flag are untouched. -/
theorem c5_window_axis_select (s : Chip)
    (hcode : s.command_code = 42 ∨ s.command_code = 43)
    (h0 : s.command_buf 0 < 256) (h1 : s.command_buf 1 < 256)
    (h2 : s.command_buf 2 < 256) (h3 : s.command_buf 3 < 256) :
    (scanMV s = true → s.command_code = 43 →
      (execute_command s).active_column = s.command_buf 0 * 256 + s.command_buf 1 ∧
      (execute_command s).column_start = s.command_buf 0 * 256 + s.command_buf 1 ∧
      (execute_command s).column_end = s.command_buf 2 * 256 + s.command_buf 3 ∧
      (execute_command s).active_row = s.active_row ∧
      (execute_command s).row_start = s.row_start ∧
      (execute_command s).row_end = s.row_end) ∧
    (scanMV s = true → s.command_code = 42 →
      (execute_command s).active_row = s.command_buf 0 * 256 + s.command_buf 1 ∧
      (execute_command s).row_start = s.command_buf 0 * 256 + s.command_buf 1 ∧
      (execute_command s).row_end = s.command_buf 2 * 256 + s.command_buf 3 ∧
      (execute_command s).active_column = s.active_column ∧
      (execute_command s).column_start = s.column_start ∧
      (execute_command s).column_end = s.column_end) ∧
    (scanMV s = false → s.command_code = 43 →
      (execute_command s).active_row = s.command_buf 0 * 256 + s.command_buf 1 ∧
      (execute_command s).row_start = s.command_buf 0 * 256 + s.command_buf 1 ∧
      (execute_command s).row_end = s.command_buf 2 * 256 + s.command_buf 3 ∧
      (execute_command s).active_column = s.active_column ∧
      (execute_command s).column_start = s.column_start ∧
      (execute_command s).column_end = s.column_end) ∧
    (scanMV s = false → s.command_code = 42 →
      (execute_command s).active_column = s.command_buf 0 * 256 + s.command_buf 1 ∧
      (execute_command s).column_start = s.command_buf 0 * 256 + s.command_buf 1 ∧
      (execute_command s).column_end = s.command_buf 2 * 256 + s.command_buf 3 ∧
      (execute_command s).active_row = s.active_row ∧
      (execute_command s).row_start = s.row_start ∧
      (execute_command s).row_end = s.row_end) ∧
    (execute_command s).scanning_direction = s.scanning_direction ∧
    (execute_command s).ram_write = s.ram_write := by
  rw [execute_window s hcode]
  refine ⟨?_, ?_, ?_, ?_, ?_, ?_⟩
  · intro hmv hc
    rw [if_pos (by simp [hmv, hc])]
    exact ⟨byte_pair _ _ h0 h1, byte_pair _ _ h0 h1, byte_pair _ _ h2 h3, rfl, rfl, rfl⟩
  · intro hmv hc
    rw [if_neg (by simp [hmv, hc])]
    exact ⟨byte_pair _ _ h0 h1, byte_pair _ _ h0 h1, byte_pair _ _ h2 h3, rfl, rfl, rfl⟩
  · intro hmv hc
    rw [if_neg (by simp [hmv, hc])]
    exact ⟨byte_pair _ _ h0 h1, byte_pair _ _ h0 h1, byte_pair _ _ h2 h3, rfl, rfl, rfl⟩
  · intro hmv hc
    rw [if_pos (by simp [hmv, hc])]
    exact ⟨byte_pair _ _ h0 h1, byte_pair _ _ h0 h1, byte_pair _ _ h2 h3, rfl, rfl, rfl⟩
  · split_ifs <;> rfl
  · split_ifs <;> rfl

/-- Witness for claim C5's theorem on a swap-axes-set Row-Address-Set with
arguments (5, 9): the column window is the axis that changes. -/
theorem c5_witness :
    (c5w_chip.command_code = 42 ∨ c5w_chip.command_code = 43) ∧
    c5w_chip.command_buf 0 < 256 ∧ c5w_chip.command_buf 1 < 256 ∧
    c5w_chip.command_buf 2 < 256 ∧ c5w_chip.command_buf 3 < 256 ∧
    ((scanMV c5w_chip = true → c5w_chip.command_code = 43 →
      (execute_command c5w_chip).active_column
          = c5w_chip.command_buf 0 * 256 + c5w_chip.command_buf 1 ∧
      (execute_command c5w_chip).column_start
          = c5w_chip.command_buf 0 * 256 + c5w_chip.command_buf 1 ∧
      (execute_command c5w_chip).column_end
          = c5w_chip.command_buf 2 * 256 + c5w_chip.command_buf 3 ∧
      (execute_command c5w_chip).active_row = c5w_chip.active_row ∧
      (execute_command c5w_chip).row_start = c5w_chip.row_start ∧
      (execute_command c5w_chip).row_end = c5w_chip.row_end) ∧
    (scanMV c5w_chip = true → c5w_chip.command_code = 42 →
      (execute_command c5w_chip).active_row
          = c5w_chip.command_buf 0 * 256 + c5w_chip.command_buf 1 ∧
      (execute_command c5w_chip).row_start
          = c5w_chip.command_buf 0 * 256 + c5w_chip.command_buf 1 ∧
      (execute_command c5w_chip).row_end
          = c5w_chip.command_buf 2 * 256 + c5w_chip.command_buf 3 ∧
      (execute_command c5w_chip).active_column = c5w_chip.active_column ∧
      (execute_command c5w_chip).column_start = c5w_chip.column_start ∧
      (execute_command c5w_chip).column_end = c5w_chip.column_end) ∧
    (scanMV c5w_chip = false → c5w_chip.command_code = 43 →
      (execute_command c5w_chip).active_row
          = c5w_chip.command_buf 0 * 256 + c5w_chip.command_buf 1 ∧
      (execute_command c5w_chip).row_start
          = c5w_chip.command_buf 0 * 256 + c5w_chip.command_buf 1 ∧
      (execute_command c5w_chip).row_end
          = c5w_chip.command_buf 2 * 256 + c5w_chip.command_buf 3 ∧
      (execute_command c5w_chip).active_column = c5w_chip.active_column ∧
      (execute_command c5w_chip).column_start = c5w_chip.column_start ∧
      (execute_command c5w_chip).column_end = c5w_chip.column_end) ∧
    (scanMV c5w_chip = false → c5w_chip.command_code = 42 →
      (execute_command c5w_chip).active_column
          = c5w_chip.command_buf 0 * 256 + c5w_chip.command_buf 1 ∧
      (execute_command c5w_chip).column_start
          = c5w_chip.command_buf 0 * 256 + c5w_chip.command_buf 1 ∧
      (execute_command c5w_chip).column_end
          = c5w_chip.command_buf 2 * 256 + c5w_chip.command_buf 3 ∧
      (execute_command c5w_chip).active_row = c5w_chip.active_row ∧
      (execute_command c5w_chip).row_start = c5w_chip.row_start ∧
      (execute_command c5w_chip).row_end = c5w_chip.row_end) ∧
    (execute_command c5w_chip).scanning_direction = c5w_chip.scanning_direction ∧
    (execute_command c5w_chip).ram_write = c5w_chip.ram_write) :=
  ⟨by decide, by decide, by decide, by decide, by decide,
   c5_window_axis_select c5w_chip (by decide) (by decide) (by decide)
     (by decide) (by decide)⟩

/-! ### Claim C8 -/

/-- Command execution sets the ram-write flag exactly for the Memory-Write
code 0x2C and otherwise leaves it alone. -/
theorem execute_ram (s : Chip) :
    (execute_command s).ram_write = (s.command_code == 44 || s.ram_write) := by
  unfold execute_command
  split_ifs <;> simp [*]
  all_goals (split_ifs <;> simp [*])

/-- One command-mode byte sets the ram-write flag exactly when it is the
Memory-Write code 0x2C. -/
theorem pcStep_ram (s : Chip) (b : Nat) :
    (pcStep s b).ram_write = (b == 44 || s.ram_write) := by
  simp only [pcStep]
  split
  · rw [execute_ram]
  · rename_i hsize
    have hb44 : (b == 44) = false := by
      simp only [command_args_size] at hsize
      split_ifs at hsize with ha hb
      · simp [ha]
      · rcases hb with h | h <;> simp [h]
      · omega
    rw [hb44, Bool.false_or]

/-- After a command-mode byte sequence the ram-write flag is set exactly
when the sequence contains the Memory-Write code. -/
theorem pc_foldl_ram : ∀ (bs : List Nat) (s : Chip),
    ((List.foldl pcStep s bs).ram_write = true ↔ (s.ram_write = true ∨ 44 ∈ bs)) := by
  intro bs
  induction bs with
  | nil => intro s; simp
  | cons b rest ih =>
    intro s
    rw [List.foldl_cons, ih, pcStep_ram]
    simp [Bool.or_eq_true]
    tauto

/-- Claim C8: in command mode the ram-write flag is cleared at the start of
the chunk (afterwards it is set exactly when the chunk contains the
Memory-Write code 0x2C, regardless of its prior value); every byte starts a
new command, discarding any prior incomplete accumulation; the parameter
count table is Memory-Access-Control (0x36 = 54) -> 1, Column-Address-Set
(0x2A = 42) -> 4, Row-Address-Set (0x2B = 43) -> 4, all other codes -> 0;
a byte with a nonzero count only begins accumulation (registers unchanged),
and a byte with count 0 executes immediately. -/
theorem c8_command_mode_chunk (s : Chip) (bs : List Nat) (b c n i : Nat) :
    ((process_command bs s).ram_write = true ↔ 44 ∈ bs) ∧
    (process_command (b :: bs) (set_pending s c n i)
      = process_command (b :: bs) s) ∧
    command_args_size 54 = 1 ∧ command_args_size 42 = 4 ∧
    command_args_size 43 = 4 ∧
    (b ≠ 54 → b ≠ 42 → b ≠ 43 → command_args_size b = 0) ∧
    (command_args_size b ≠ 0 →
      (process_command (bs ++ [b]) s).command_code = b ∧
      (process_command (bs ++ [b]) s).command_size = command_args_size b ∧
      (process_command (bs ++ [b]) s).command_index = 0 ∧
      regs (process_command (bs ++ [b]) s) = regs (process_command bs s)) ∧
    (command_args_size b = 0 →
      process_command (bs ++ [b]) s
        = execute_command (set_pending (process_command bs s) b 0 0)) := by
  have happ : process_command (bs ++ [b]) s = pcStep (process_command bs s) b := by
    simp [process_command, List.foldl_append]
  refine ⟨?_, rfl, rfl, rfl, rfl, ?_, ?_, ?_⟩
  · rw [process_command, pc_foldl_ram]
    simp
  · intro h54 h42 h43
    simp [command_args_size, h54, h42, h43]
  · intro hsize
    rw [happ]
    simp only [pcStep]
    rw [if_neg hsize]
    exact ⟨rfl, rfl, rfl, rfl⟩
  · intro hsize
    rw [happ]
    simp only [pcStep, hsize, set_pending]
    simp

/-- Witness for claim C8's theorem on the chunk [0x2C] followed by the
Column-Address-Set byte 0x2A, with a stale pending accumulation (7, 7, 7). -/
theorem c8_witness :
    ((process_command [44] base_chip).ram_write = true ↔ 44 ∈ [44]) ∧
    (process_command [42, 44] (set_pending base_chip 7 7 7)
      = process_command [42, 44] base_chip) ∧
    command_args_size 54 = 1 ∧ command_args_size 42 = 4 ∧
    command_args_size 43 = 4 ∧
    (42 ≠ 54 → 42 ≠ 42 → 42 ≠ 43 → command_args_size 42 = 0) ∧
    (command_args_size 42 ≠ 0 →
      (process_command ([44] ++ [42]) base_chip).command_code = 42 ∧
      (process_command ([44] ++ [42]) base_chip).command_size
        = command_args_size 42 ∧
      (process_command ([44] ++ [42]) base_chip).command_index = 0 ∧
      regs (process_command ([44] ++ [42]) base_chip)
        = regs (process_command [44] base_chip)) ∧
    (command_args_size 42 = 0 →
      process_command ([44] ++ [42]) base_chip
        = execute_command (set_pending (process_command [44] base_chip) 42 0 0)) :=
  c8_command_mode_chunk base_chip [44] 42 7 7 7

/-! ### Claim C4 -/

/-- Claim C4 counterexample: delivering the Column-Address-Set opcode and
its 4 argument bytes (0,0,0,5) as two chunks (command mode, then data mode)
sets the column window end to 5, but delivering the same 5 bytes in one
chunk leaves it at 127: a single chunk is classified under one mode, so in
command mode the argument bytes are consumed as fresh command bytes and the
window command never executes. -/
theorem c4_counterexample :
    (run_events [Ev.setMode Mode.command, Ev.chunk [42], Ev.setMode Mode.data,
                 Ev.chunk [0, 0, 0, 5]] base_chip).chip.column_end = 5 ∧
    (run_events [Ev.setMode Mode.command,
                 Ev.chunk [42, 0, 0, 0, 5]] base_chip).chip.column_end = 127 ∧
    (5 : Nat) ≠ 127 := by decide

/-- Claim C4 (amended): for a 4-argument command (Column-Address-Set 0x2A or
Row-Address-Set 0x2B), delivering the opcode as one command-mode chunk and
its 4 argument bytes split across two later data-mode chunks yields exactly
the same final register state (window, cursor, orientation, ram-write flag)
as delivering the opcode chunk followed by all 4 argument bytes in a single
data-mode chunk: chunk boundaries inside the argument stream are
invisible. -/
theorem c4_chunk_split_equiv (s : Chip) (op a0 a1 a2 a3 : Nat)
    (hop : op = 42 ∨ op = 43) :
    regs (run_events [Ev.setMode Mode.command, Ev.chunk [op], Ev.setMode Mode.data,
                      Ev.chunk [a0, a1], Ev.chunk [a2, a3]] s).chip
      = regs (run_events [Ev.setMode Mode.command, Ev.chunk [op], Ev.setMode Mode.data,
                          Ev.chunk [a0, a1, a2, a3]] s).chip := by
  rcases hop with h | h <;> subst h <;>
    simp [run_events, evStep, chip_spi_done, process_command, pcStep,
          command_args_size, process_command_args, pcaStep, regs]

/-- Witness for claim C4's theorem with opcode 0x2A and argument bytes
1, 2, 3, 4. -/
theorem c4_witness :
    ((42 : Nat) = 42 ∨ (42 : Nat) = 43) ∧
    regs (run_events [Ev.setMode Mode.command, Ev.chunk [42], Ev.setMode Mode.data,
                      Ev.chunk [1, 2], Ev.chunk [3, 4]] base_chip).chip
      = regs (run_events [Ev.setMode Mode.command, Ev.chunk [42], Ev.setMode Mode.data,
                          Ev.chunk [1, 2, 3, 4]] base_chip).chip :=
  ⟨Or.inl rfl, c4_chunk_split_equiv base_chip 42 1 2 3 4 (Or.inl rfl)⟩


/-! ### Cursor advancement: claims C6, C7, C9 -/

/-- Index bound for a two-dimensional raster position. -/
theorem mul_idx_lt {a b m n : Nat} (ha : a < n) (hb : b < m) :
    a * m + b < n * m := by
  calc a * m + b < a * m + m := by omega
  _ = (a + 1) * m := by ring
  _ ≤ n * m := Nat.mul_le_mul_right m ha

/-- The generic advance stays inside its bounds and increases the raster
index by one, modulo the window area. -/
theorem adv2_spec (fs f fe ss sv se : Nat)
    (hf1 : fs ≤ f) (hf2 : f ≤ fe) (hs1 : ss ≤ sv) (hs2 : sv ≤ se)
    (hfe : fe ≤ 4294967294) (hse : se ≤ 4294967294) :
    fs ≤ (adv2 fs f fe ss sv se).1 ∧ (adv2 fs f fe ss sv se).1 ≤ fe ∧
    ss ≤ (adv2 fs f fe ss sv se).2 ∧ (adv2 fs f fe ss sv se).2 ≤ se ∧
    ((adv2 fs f fe ss sv se).2 - ss) * (fe - fs + 1)
        + ((adv2 fs f fe ss sv se).1 - fs)
      = ((sv - ss) * (fe - fs + 1) + (f - fs) + 1)
          % ((se - ss + 1) * (fe - fs + 1)) := by
  unfold adv2
  simp only [U32]
  have hfm : (f + 1) % 4294967296 = f + 1 := Nat.mod_eq_of_lt (by omega)
  rw [hfm]
  by_cases h1 : fe < f + 1
  · have hfeq : f = fe := by omega
    have hsm : (sv + 1) % 4294967296 = sv + 1 := Nat.mod_eq_of_lt (by omega)
    rw [if_pos h1, hsm]
    by_cases h2 : se < sv + 1
    · have hseq : sv = se := by omega
      rw [if_pos h2]
      have e1 : (sv - ss) * (fe - fs + 1) + (f - fs) + 1
          = (se - ss + 1) * (fe - fs + 1) := by
        rw [hfeq, hseq, Nat.succ_mul]
        omega
      rw [e1, Nat.mod_self]
      simp
      omega
    · rw [if_neg h2]
      have e1 : (sv - ss) * (fe - fs + 1) + (f - fs) + 1
          = (sv + 1 - ss) * (fe - fs + 1) := by
        have e2 : sv + 1 - ss = (sv - ss) + 1 := by omega
        rw [hfeq, e2, Nat.succ_mul]
        omega
      rw [e1]
      have hlt : (sv + 1 - ss) * (fe - fs + 1) + 0
          < (se - ss + 1) * (fe - fs + 1) :=
        mul_idx_lt (by omega) (by omega)
      rw [Nat.mod_eq_of_lt (by omega)]
      dsimp only
      refine ⟨le_refl fs, hf1.trans hf2, by omega, by omega, by omega⟩
  · rw [if_neg h1]
    have hlt : (sv - ss) * (fe - fs + 1) + (f + 1 - fs)
        < (se - ss + 1) * (fe - fs + 1) :=
      mul_idx_lt (by omega) (by omega)
    rw [Nat.mod_eq_of_lt (by omega)]
    dsimp only
    refine ⟨by omega, by omega, hs1, hs2, by omega⟩

/-- Cursor advancement only touches the cursor fields. -/
theorem advance_frame (s : Chip) :
    (advance_cursor s).mode = s.mode ∧
    (advance_cursor s).command_code = s.command_code ∧
    (advance_cursor s).command_size = s.command_size ∧
    (advance_cursor s).command_index = s.command_index ∧
    (advance_cursor s).command_buf = s.command_buf ∧
    (advance_cursor s).ram_write = s.ram_write ∧
    (advance_cursor s).column_start = s.column_start ∧
    (advance_cursor s).column_end = s.column_end ∧
    (advance_cursor s).row_start = s.row_start ∧
    (advance_cursor s).row_end = s.row_end ∧
    (advance_cursor s).scanning_direction = s.scanning_direction ∧
    (advance_cursor s).width = s.width ∧
    (advance_cursor s).height = s.height := by
  unfold advance_cursor
  dsimp only
  repeat' split
  all_goals simp

/-- With swap-axes set, the cursor advance is the generic advance with the
row as the fast axis. -/
theorem advance_bridge_mv (s : Chip) (hmv : scanMV s = true) :
    (advance_cursor s).active_row
        = (adv2 s.row_start s.active_row s.row_end
            s.column_start s.active_column s.column_end).1 ∧
    (advance_cursor s).active_column
        = (adv2 s.row_start s.active_row s.row_end
            s.column_start s.active_column s.column_end).2 := by
  unfold advance_cursor adv2
  simp only [hmv]
  repeat' split
  all_goals simp_all

/-- With swap-axes clear, the cursor advance is the generic advance with the
column as the fast axis. -/
theorem advance_bridge_nmv (s : Chip) (hmv : scanMV s = false) :
    (advance_cursor s).active_column
        = (adv2 s.column_start s.active_column s.column_end
            s.row_start s.active_row s.row_end).1 ∧
    (advance_cursor s).active_row
        = (adv2 s.column_start s.active_column s.column_end
            s.row_start s.active_row s.row_end).2 := by
  unfold advance_cursor adv2
  simp only [hmv]
  repeat' split
  all_goals simp_all

/-- Raster index with swap-axes set. -/
theorem raster_idx_mv (s : Chip) (hmv : scanMV s = true) :
    raster_idx s = (s.active_column - s.column_start) * win_h s
      + (s.active_row - s.row_start) := by
  unfold raster_idx
  rw [hmv]
  simp

/-- Raster index with swap-axes clear. -/
theorem raster_idx_nmv (s : Chip) (hmv : scanMV s = false) :
    raster_idx s = (s.active_row - s.row_start) * win_w s
      + (s.active_column - s.column_start) := by
  unfold raster_idx
  rw [hmv]
  simp

/-- One cursor advance from inside the window stays inside the window and
increments the raster index modulo the window area. -/
theorem advance_step (s : Chip)
    (h1 : s.column_start ≤ s.active_column) (h2 : s.active_column ≤ s.column_end)
    (h3 : s.row_start ≤ s.active_row) (h4 : s.active_row ≤ s.row_end)
    (hce : s.column_end ≤ 4294967294) (hre : s.row_end ≤ 4294967294) :
    s.column_start ≤ (advance_cursor s).active_column ∧
    (advance_cursor s).active_column ≤ s.column_end ∧
    s.row_start ≤ (advance_cursor s).active_row ∧
    (advance_cursor s).active_row ≤ s.row_end ∧
    raster_idx (advance_cursor s) = (raster_idx s + 1) % win_area s := by
  obtain ⟨f1, f2, f3, f4, f5, f6, f7, f8, f9, f10, f11, f12, f13⟩ := advance_frame s
  have hwh : win_h (advance_cursor s) = win_h s := by
    unfold win_h
    rw [f9, f10]
  have hww : win_w (advance_cursor s) = win_w s := by
    unfold win_w
    rw [f7, f8]
  by_cases hmv : scanMV s = true
  · have hmv' : scanMV (advance_cursor s) = true := by
      unfold scanMV at hmv ⊢
      rw [f11]
      exact hmv
    obtain ⟨hbr, hbc⟩ := advance_bridge_mv s hmv
    obtain ⟨w1, w2, w3, w4, heq⟩ := adv2_spec s.row_start s.active_row s.row_end
      s.column_start s.active_column s.column_end h3 h4 h1 h2 hre hce
    refine ⟨?_, ?_, ?_, ?_, ?_⟩
    · rw [hbc]; exact w3
    · rw [hbc]; exact w4
    · rw [hbr]; exact w1
    · rw [hbr]; exact w2
    · rw [raster_idx_mv _ hmv', raster_idx_mv _ hmv, hwh, f7, f9, hbr, hbc]
      unfold win_area win_w win_h
      exact heq
  · have hmvf : scanMV s = false := by
      cases hb : scanMV s
      · rfl
      · exact absurd hb hmv
    have hmv' : scanMV (advance_cursor s) = false := by
      unfold scanMV at hmvf ⊢
      rw [f11]
      exact hmvf
    obtain ⟨hbc, hbr⟩ := advance_bridge_nmv s hmvf
    obtain ⟨w1, w2, w3, w4, heq⟩ := adv2_spec s.column_start s.active_column
      s.column_end s.row_start s.active_row s.row_end h1 h2 h3 h4 hce hre
    refine ⟨?_, ?_, ?_, ?_, ?_⟩
    · rw [hbc]; exact w1
    · rw [hbc]; exact w2
    · rw [hbr]; exact w3
    · rw [hbr]; exact w4
    · rw [raster_idx_nmv _ hmv', raster_idx_nmv _ hmvf, hww, f9, f7, hbr, hbc]
      unfold win_area win_w win_h
      rw [Nat.mul_comm (s.column_end - s.column_start + 1) (s.row_end - s.row_start + 1)]
      exact heq

/-- The raster index of an in-window cursor is below the window area. -/
theorem raster_idx_lt (s : Chip)
    (h1 : s.column_start ≤ s.active_column) (h2 : s.active_column ≤ s.column_end)
    (h3 : s.row_start ≤ s.active_row) (h4 : s.active_row ≤ s.row_end) :
    raster_idx s < win_area s := by
  by_cases hmv : scanMV s = true
  · rw [raster_idx_mv s hmv]
    unfold win_area win_w win_h
    exact mul_idx_lt (by omega) (by omega)
  · have hmvf : scanMV s = false := by
      cases hb : scanMV s
      · rfl
      · exact absurd hb hmv
    rw [raster_idx_nmv s hmvf]
    unfold win_area win_w win_h
    rw [Nat.mul_comm (s.column_end - s.column_start + 1) (s.row_end - s.row_start + 1)]
    exact mul_idx_lt (by omega) (by omega)

/-- An in-window cursor is the raster position of its own raster index. -/
theorem raster_recover (s : Chip)
    (h1 : s.column_start ≤ s.active_column) (h2 : s.active_column ≤ s.column_end)
    (h3 : s.row_start ≤ s.active_row) (h4 : s.active_row ≤ s.row_end) :
    raster_col s (raster_idx s) = s.active_column ∧
    raster_row s (raster_idx s) = s.active_row := by
  by_cases hmv : scanMV s = true
  · rw [raster_idx_mv s hmv]
    unfold raster_col raster_row
    rw [hmv]
    have hH : 0 < win_h s := by unfold win_h; omega
    constructor
    · simp only [if_true]
      rw [Nat.mul_comm (s.active_column - s.column_start) (win_h s),
        Nat.mul_add_div hH,
        Nat.div_eq_of_lt (show s.active_row - s.row_start < win_h s by
          unfold win_h; omega)]
      omega
    · simp only [if_true]
      rw [Nat.mul_comm (s.active_column - s.column_start) (win_h s),
        Nat.mul_add_mod,
        Nat.mod_eq_of_lt (show s.active_row - s.row_start < win_h s by
          unfold win_h; omega)]
      omega
  · have hmvf : scanMV s = false := by
      cases hb : scanMV s
      · rfl
      · exact absurd hb hmv
    rw [raster_idx_nmv s hmvf]
    unfold raster_col raster_row
    rw [hmvf]
    have hW : 0 < win_w s := by unfold win_w; omega
    constructor
    · simp only [Bool.false_eq_true, if_false]
      rw [Nat.mul_comm (s.active_row - s.row_start) (win_w s),
        Nat.mul_add_mod,
        Nat.mod_eq_of_lt (show s.active_column - s.column_start < win_w s by
          unfold win_w; omega)]
      omega
    · simp only [Bool.false_eq_true, if_false]
      rw [Nat.mul_comm (s.active_row - s.row_start) (win_w s),
        Nat.mul_add_div hW,
        Nat.div_eq_of_lt (show s.active_column - s.column_start < win_w s by
          unfold win_w; omega)]
      omega

/-- Main induction for the pixel writer: streaming N samples keeps the
cursor inside the window, leaves all other fields unchanged, and moves the
raster index forward by N modulo the window area. -/
theorem pd_fold : ∀ (bs : List Nat) (s : Chip) (t : List (Nat × Nat)),
    s.column_start ≤ s.active_column → s.active_column ≤ s.column_end →
    s.row_start ≤ s.active_row → s.active_row ≤ s.row_end →
    s.column_end ≤ 4294967294 → s.row_end ≤ 4294967294 →
    ((List.foldl pdStep (s, t) bs).1.column_start = s.column_start ∧
     (List.foldl pdStep (s, t) bs).1.column_end = s.column_end ∧
     (List.foldl pdStep (s, t) bs).1.row_start = s.row_start ∧
     (List.foldl pdStep (s, t) bs).1.row_end = s.row_end ∧
     (List.foldl pdStep (s, t) bs).1.scanning_direction = s.scanning_direction ∧
     (List.foldl pdStep (s, t) bs).1.width = s.width ∧
     (List.foldl pdStep (s, t) bs).1.height = s.height) ∧
    (s.column_start ≤ (List.foldl pdStep (s, t) bs).1.active_column ∧
     (List.foldl pdStep (s, t) bs).1.active_column ≤ s.column_end ∧
     s.row_start ≤ (List.foldl pdStep (s, t) bs).1.active_row ∧
     (List.foldl pdStep (s, t) bs).1.active_row ≤ s.row_end) ∧
    raster_idx (List.foldl pdStep (s, t) bs).1
      = (raster_idx s + bs.length) % win_area s := by
  intro bs
  induction bs with
  | nil =>
    intro s t h1 h2 h3 h4 hce hre
    refine ⟨⟨rfl, rfl, rfl, rfl, rfl, rfl, rfl⟩, ⟨h1, h2, h3, h4⟩, ?_⟩
    simp only [List.foldl_nil, List.length_nil, Nat.add_zero]
    rw [Nat.mod_eq_of_lt (raster_idx_lt s h1 h2 h3 h4)]
  | cons b rest ih =>
    intro s t h1 h2 h3 h4 hce hre
    rw [List.foldl_cons]
    have hpd : pdStep (s, t) b
        = (advance_cursor s, t ++ [(pix_offset s, rgb565_to_rgba b)]) := rfl
    rw [hpd]
    obtain ⟨a1, a2, a3, a4, a5⟩ := advance_step s h1 h2 h3 h4 hce hre
    obtain ⟨f1, f2, f3, f4, f5, f6, f7, f8, f9, f10, f11, f12, f13⟩ :=
      advance_frame s
    have h1' : (advance_cursor s).column_start
        ≤ (advance_cursor s).active_column := by rw [f7]; exact a1
    have h2' : (advance_cursor s).active_column
        ≤ (advance_cursor s).column_end := by rw [f8]; exact a2
    have h3' : (advance_cursor s).row_start
        ≤ (advance_cursor s).active_row := by rw [f9]; exact a3
    have h4' : (advance_cursor s).active_row
        ≤ (advance_cursor s).row_end := by rw [f10]; exact a4
    have hce' : (advance_cursor s).column_end ≤ 4294967294 := by
      rw [f8]; exact hce
    have hre' : (advance_cursor s).row_end ≤ 4294967294 := by
      rw [f10]; exact hre
    obtain ⟨⟨g1, g2, g3, g4, g5, g6, g7⟩, ⟨g8, g9, g10, g11⟩, g12⟩ :=
      ih (advance_cursor s) (t ++ [(pix_offset s, rgb565_to_rgba b)])
        h1' h2' h3' h4' hce' hre'
    have harea : win_area (advance_cursor s) = win_area s := by
      unfold win_area win_w win_h
      rw [f7, f8, f9, f10]
    refine ⟨⟨?_, ?_, ?_, ?_, ?_, ?_, ?_⟩, ⟨?_, ?_, ?_, ?_⟩, ?_⟩
    · rw [g1, f7]
    · rw [g2, f8]
    · rw [g3, f9]
    · rw [g4, f10]
    · rw [g5, f11]
    · rw [g6, f12]
    · rw [g7, f13]
    · rw [← f7]; exact g8
    · rw [← f8]; exact g9
    · rw [← f9]; exact g10
    · rw [← f10]; exact g11
    · rw [g12, harea, a5, Nat.mod_add_mod]
      congr 1
      simp only [List.length_cons]
      omega

/-- Claim C6 counterexample: with a 2-pixel window and the cursor starting
at raster index 1 (not at the window origin), one sample wraps the cursor to
index 0, while the claim predicts the (1 mod 2)-th raster position, index 1:
the claimed formula ignores the starting cursor position. -/
theorem c6_counterexample :
    (process_data [0] c6_chip).1.active_column = 0 ∧
    (process_data [0] c6_chip).1.active_row = 0 ∧
    win_area c6_chip = 2 ∧
    raster_col c6_chip (1 % win_area c6_chip) = 1 ∧
    raster_row c6_chip (1 % win_area c6_chip) = 0 ∧
    (0 : Nat) ≠ 1 := by decide

/-- Claim C6 (amended): for a cursor inside the window, window bounds with
start at most end (implied) and end bounds below 2^32 - 1 (no 32-bit
wraparound), after streaming N samples the cursor is at the ((k + N) mod
A)-th raster position in scan order, where k is the starting cursor's
raster index and A the window area; the cursor never leaves the window
bounds after any sample, and the fill wraps indefinitely for arbitrarily
large N. -/
theorem c6_raster_cursor (s : Chip) (bs : List Nat)
    (h1 : s.column_start ≤ s.active_column) (h2 : s.active_column ≤ s.column_end)
    (h3 : s.row_start ≤ s.active_row) (h4 : s.active_row ≤ s.row_end)
    (hce : s.column_end ≤ 4294967294) (hre : s.row_end ≤ 4294967294) :
    (s.column_start ≤ (process_data bs s).1.active_column ∧
     (process_data bs s).1.active_column ≤ s.column_end ∧
     s.row_start ≤ (process_data bs s).1.active_row ∧
     (process_data bs s).1.active_row ≤ s.row_end) ∧
    (process_data bs s).1.active_column
        = raster_col s ((raster_idx s + bs.length) % win_area s) ∧
    (process_data bs s).1.active_row
        = raster_row s ((raster_idx s + bs.length) % win_area s) := by
  obtain ⟨⟨g1, g2, g3, g4, g5, g6, g7⟩, ⟨g8, g9, g10, g11⟩, g12⟩ :=
    pd_fold bs s [] h1 h2 h3 h4 hce hre
  simp only [process_data]
  refine ⟨⟨g8, g9, g10, g11⟩, ?_, ?_⟩
  all_goals {
    have h1x : (List.foldl pdStep (s, []) bs).1.column_start
        ≤ (List.foldl pdStep (s, []) bs).1.active_column := by rw [g1]; exact g8
    have h2x : (List.foldl pdStep (s, []) bs).1.active_column
        ≤ (List.foldl pdStep (s, []) bs).1.column_end := by rw [g2]; exact g9
    have h3x : (List.foldl pdStep (s, []) bs).1.row_start
        ≤ (List.foldl pdStep (s, []) bs).1.active_row := by rw [g3]; exact g10
    have h4x : (List.foldl pdStep (s, []) bs).1.active_row
        ≤ (List.foldl pdStep (s, []) bs).1.row_end := by rw [g4]; exact g11
    obtain ⟨hrc, hrr⟩ :=
      raster_recover (List.foldl pdStep (s, []) bs).1 h1x h2x h3x h4x
    have hmvX : scanMV (List.foldl pdStep (s, []) bs).1 = scanMV s := by
      unfold scanMV
      rw [g5]
    first
    | (rw [← hrc, g12]
       unfold raster_col win_h win_w
       rw [hmvX, g1, g2, g3, g4])
    | (rw [← hrr, g12]
       unfold raster_row win_h win_w
       rw [hmvX, g1, g2, g3, g4]) }

/-- Witness for claim C6's theorem: 3 samples into a 2x2 window starting at
the origin. -/
theorem c6_witness :
    (c6w_chip.column_start ≤ c6w_chip.active_column ∧
     c6w_chip.active_column ≤ c6w_chip.column_end ∧
     c6w_chip.row_start ≤ c6w_chip.active_row ∧
     c6w_chip.active_row ≤ c6w_chip.row_end ∧
     c6w_chip.column_end ≤ 4294967294 ∧ c6w_chip.row_end ≤ 4294967294) ∧
    ((c6w_chip.column_start ≤ (process_data [7, 7, 7] c6w_chip).1.active_column ∧
      (process_data [7, 7, 7] c6w_chip).1.active_column ≤ c6w_chip.column_end ∧
      c6w_chip.row_start ≤ (process_data [7, 7, 7] c6w_chip).1.active_row ∧
      (process_data [7, 7, 7] c6w_chip).1.active_row ≤ c6w_chip.row_end) ∧
     (process_data [7, 7, 7] c6w_chip).1.active_column
        = raster_col c6w_chip
            ((raster_idx c6w_chip + [7, 7, 7].length) % win_area c6w_chip) ∧
     (process_data [7, 7, 7] c6w_chip).1.active_row
        = raster_row c6w_chip
            ((raster_idx c6w_chip + [7, 7, 7].length) % win_area c6w_chip)) :=
  ⟨⟨by decide, by decide, by decide, by decide, by decide, by decide⟩,
   c6_raster_cursor c6w_chip [7, 7, 7] (by decide) (by decide) (by decide)
     (by decide) (by decide) (by decide)⟩

/-- For an in-range coordinate the 32-bit mirror computation is the plain
subtraction. -/
theorem mir32_eq (w v : Nat) (hv : v < w) (hw : w ≤ 4294967295) :
    mir32 w v = w - 1 - v := by
  unfold mir32 U32
  have hvm : v % 4294967296 = v := Nat.mod_eq_of_lt (by omega)
  rw [hvm]
  omega

/-- The sink x-coordinate of an in-surface cursor is inside the surface. -/
theorem sinkx_lt (s : Chip) (hx : s.active_column < s.width)
    (hw : s.width ≤ 4294967295) : sink_x s < s.width := by
  unfold sink_x
  split_ifs <;> first | omega | (rw [mir32_eq _ _ hx hw]; omega)

/-- The sink y-coordinate of an in-surface cursor is inside the surface. -/
theorem sinky_lt (s : Chip) (hy : s.active_row < s.height)
    (hh : s.height ≤ 4294967295) : sink_y s < s.height := by
  unfold sink_y
  split_ifs <;> first | omega | (rw [mir32_eq _ _ hy hh]; omega)

/-- For an in-surface cursor on a surface of at most 2^32 bytes the write
offset is exactly (y * width + x) * 4. -/
theorem pix_offset_eq (s : Chip) (hx : s.active_column < s.width)
    (hy : s.active_row < s.height)
    (hsz : s.width * s.height * 4 ≤ 4294967296) :
    pix_offset s = (sink_y s * s.width + sink_x s) * 4 := by
  have hhp : 0 < s.height := by omega
  have hwb : s.width ≤ 4294967295 := by
    have h4 : s.width * 1 * 4 ≤ s.width * s.height * 4 :=
      Nat.mul_le_mul_right 4 (Nat.mul_le_mul_left s.width hhp)
    omega
  have hhb : s.height ≤ 4294967295 := by
    have h0 : 0 < s.width := by omega
    have h4 : 1 * s.height * 4 ≤ s.width * s.height * 4 :=
      Nat.mul_le_mul_right 4 (Nat.mul_le_mul_right s.height h0)
    omega
  have hxl := sinkx_lt s hx hwb
  have hyl := sinky_lt s hy hhb
  have hm : sink_y s * s.width + sink_x s < s.width * s.height := by
    have h := mul_idx_lt hyl hxl
    rw [Nat.mul_comm s.height s.width] at h
    exact h
  unfold pix_offset U32
  omega

/-- A write from inside a window that lies inside the surface lands below
width * height * 4. -/
theorem offset_lt (s : Chip)
    (h2 : s.active_column ≤ s.column_end) (h5 : s.column_end < s.width)
    (h4 : s.active_row ≤ s.row_end) (h6 : s.row_end < s.height)
    (h7 : s.width ≤ 4294967295) (h8 : s.height ≤ 4294967295) :
    pix_offset s < s.width * s.height * 4 := by
  have hx : s.active_column < s.width := by omega
  have hy : s.active_row < s.height := by omega
  have hxl := sinkx_lt s hx h7
  have hyl := sinky_lt s hy h8
  have hm : sink_y s * s.width + sink_x s < s.width * s.height := by
    have h := mul_idx_lt hyl hxl
    rw [Nat.mul_comm s.height s.width] at h
    exact h
  unfold pix_offset U32
  omega

/-- Claim C7: for every cursor position inside the surface and every
orientation-flag combination (surface byte size fitting in 32 bits), the
sink coordinates are x = (mirror-X ? width-1-col : col) and
y = (mirror-Y ? height-1-row : row) when swap-axes is set, and
x = (mirror-Y ? width-1-col : col), y = (mirror-X ? height-1-row : row)
when clear; the sample is written at byte offset (y * width + x) * 4. -/
theorem c7_sink_coords (s : Chip) (b : Nat)
    (hx : s.active_column < s.width) (hy : s.active_row < s.height)
    (hsz : s.width * s.height * 4 ≤ 4294967296) :
    sink_x s = (if scanMV s then
        (if scanMX s then s.width - 1 - s.active_column else s.active_column)
      else
        (if scanMY s then s.width - 1 - s.active_column else s.active_column)) ∧
    sink_y s = (if scanMV s then
        (if scanMY s then s.height - 1 - s.active_row else s.active_row)
      else
        (if scanMX s then s.height - 1 - s.active_row else s.active_row)) ∧
    (process_data [b] s).2
      = [((sink_y s * s.width + sink_x s) * 4, rgb565_to_rgba b)] := by
  have hhp : 0 < s.height := by omega
  have hwb : s.width ≤ 4294967295 := by
    have h4 : s.width * 1 * 4 ≤ s.width * s.height * 4 :=
      Nat.mul_le_mul_right 4 (Nat.mul_le_mul_left s.width hhp)
    omega
  have hhb : s.height ≤ 4294967295 := by
    have h0 : 0 < s.width := by omega
    have h4 : 1 * s.height * 4 ≤ s.width * s.height * 4 :=
      Nat.mul_le_mul_right 4 (Nat.mul_le_mul_right s.height h0)
    omega
  refine ⟨?_, ?_, ?_⟩
  · unfold sink_x
    split_ifs <;> first | rfl | (rw [mir32_eq _ _ hx hwb])
  · unfold sink_y
    split_ifs <;> first | rfl | (rw [mir32_eq _ _ hy hhb])
  · simp only [process_data, List.foldl_cons, List.foldl_nil, pdStep]
    rw [pix_offset_eq s hx hy hsz]
    simp

/-- Witness for claim C7's theorem with all three orientation flags set. -/
theorem c7_witness :
    (c7w_chip.active_column < c7w_chip.width ∧
     c7w_chip.active_row < c7w_chip.height ∧
     c7w_chip.width * c7w_chip.height * 4 ≤ 4294967296) ∧
    (sink_x c7w_chip = (if scanMV c7w_chip then
        (if scanMX c7w_chip then c7w_chip.width - 1 - c7w_chip.active_column
         else c7w_chip.active_column)
      else
        (if scanMY c7w_chip then c7w_chip.width - 1 - c7w_chip.active_column
         else c7w_chip.active_column)) ∧
     sink_y c7w_chip = (if scanMV c7w_chip then
        (if scanMY c7w_chip then c7w_chip.height - 1 - c7w_chip.active_row
         else c7w_chip.active_row)
      else
        (if scanMX c7w_chip then c7w_chip.height - 1 - c7w_chip.active_row
         else c7w_chip.active_row)) ∧
     (process_data [31] c7w_chip).2
        = [((sink_y c7w_chip * c7w_chip.width + sink_x c7w_chip) * 4,
            rgb565_to_rgba 31)]) :=
  ⟨⟨by decide, by decide, by decide⟩,
   c7_sink_coords c7w_chip 31 (by decide) (by decide) (by decide)⟩

/-- Every write traced by the pixel writer from a well-formed window is
either inherited from the accumulator or lands inside the surface. -/
theorem pd_writes : ∀ (bs : List Nat) (s : Chip) (t : List (Nat × Nat)),
    s.column_start ≤ s.active_column → s.active_column ≤ s.column_end →
    s.row_start ≤ s.active_row → s.active_row ≤ s.row_end →
    s.column_end < s.width → s.row_end < s.height →
    s.width ≤ 4294967295 → s.height ≤ 4294967295 →
    ∀ p ∈ (List.foldl pdStep (s, t) bs).2,
      p ∈ t ∨ p.1 < s.width * s.height * 4 := by
  intro bs
  induction bs with
  | nil =>
    intro s t _ _ _ _ _ _ _ _ p hp
    exact Or.inl hp
  | cons b rest ih =>
    intro s t h1 h2 h3 h4 h5 h6 h7 h8 p hp
    rw [List.foldl_cons] at hp
    have hpd : pdStep (s, t) b
        = (advance_cursor s, t ++ [(pix_offset s, rgb565_to_rgba b)]) := rfl
    rw [hpd] at hp
    obtain ⟨a1, a2, a3, a4, a5⟩ := advance_step s h1 h2 h3 h4 (by omega) (by omega)
    obtain ⟨f1, f2, f3, f4, f5, f6, f7, f8, f9, f10, f11, f12, f13⟩ :=
      advance_frame s
    have h1' : (advance_cursor s).column_start
        ≤ (advance_cursor s).active_column := by rw [f7]; exact a1
    have h2' : (advance_cursor s).active_column
        ≤ (advance_cursor s).column_end := by rw [f8]; exact a2
    have h3' : (advance_cursor s).row_start
        ≤ (advance_cursor s).active_row := by rw [f9]; exact a3
    have h4' : (advance_cursor s).active_row
        ≤ (advance_cursor s).row_end := by rw [f10]; exact a4
    have h5' : (advance_cursor s).column_end < (advance_cursor s).width := by
      rw [f8, f12]; exact h5
    have h6' : (advance_cursor s).row_end < (advance_cursor s).height := by
      rw [f10, f13]; exact h6
    have h7' : (advance_cursor s).width ≤ 4294967295 := by rw [f12]; exact h7
    have h8' : (advance_cursor s).height ≤ 4294967295 := by rw [f13]; exact h8
    have hrec := ih (advance_cursor s) (t ++ [(pix_offset s, rgb565_to_rgba b)])
      h1' h2' h3' h4' h5' h6' h7' h8' p hp
    rw [f12, f13] at hrec
    rcases hrec with hm | hbound
    · rcases List.mem_append.mp hm with h | h
      · exact Or.inl h
      · have hp1 : p = (pix_offset s, rgb565_to_rgba b) := by
          simpa using h
        refine Or.inr ?_
        rw [hp1]
        exact offset_lt s h2 h5 h4 h6 h7 h8
    · exact Or.inr hbound

/-- Claim C9: for a window inside the output surface and a cursor inside
the window, every byte offset passed to the pixel sink over any number of
streamed samples lies in [0, width * height * 4), for every orientation-flag
combination. -/
theorem c9_offset_bounds (s : Chip) (bs : List Nat)
    (h1 : s.column_start ≤ s.active_column) (h2 : s.active_column ≤ s.column_end)
    (h3 : s.row_start ≤ s.active_row) (h4 : s.active_row ≤ s.row_end)
    (h5 : s.column_end < s.width) (h6 : s.row_end < s.height)
    (h7 : s.width ≤ 4294967295) (h8 : s.height ≤ 4294967295) :
    ∀ p ∈ (process_data bs s).2, p.1 < s.width * s.height * 4 := by
  intro p hp
  have hp' : p ∈ (List.foldl pdStep (s, []) bs).2 := by
    simpa [process_data] using hp
  rcases pd_writes bs s [] h1 h2 h3 h4 h5 h6 h7 h8 p hp' with h | h
  · exact absurd h (List.not_mem_nil p)
  · exact h

/-- Witness for claim C9's theorem: 3 samples into a 2x2 window on the
128x160 surface. -/
theorem c9_witness :
    (c6w_chip.column_start ≤ c6w_chip.active_column ∧
     c6w_chip.active_column ≤ c6w_chip.column_end ∧
     c6w_chip.row_start ≤ c6w_chip.active_row ∧
     c6w_chip.active_row ≤ c6w_chip.row_end ∧
     c6w_chip.column_end < c6w_chip.width ∧
     c6w_chip.row_end < c6w_chip.height ∧
     c6w_chip.width ≤ 4294967295 ∧ c6w_chip.height ≤ 4294967295) ∧
    ∀ p ∈ (process_data [1, 2, 3] c6w_chip).2,
      p.1 < c6w_chip.width * c6w_chip.height * 4 :=
  ⟨⟨by decide, by decide, by decide, by decide, by decide, by decide,
    by decide, by decide⟩,
   c9_offset_bounds c6w_chip [1, 2, 3] (by decide) (by decide) (by decide)
     (by decide) (by decide) (by decide) (by decide) (by decide)⟩

/-! ### Claim C10 -/

/-- The parameter-count table never exceeds 4. -/
theorem args_size_le (b : Nat) : command_args_size b ≤ 4 := by
  unfold command_args_size
  split_ifs <;> omega

/-- A command-mode byte establishes the accumulator invariant. -/
theorem pcStep_inv (s : Chip) (b : Nat) : ChipInv (pcStep s b) := by
  have hsize : (pcStep s b).command_size = command_args_size b := by
    simp only [pcStep]
    split
    · exact (execute_frame _).2.2.1
    · rfl
  have hidx : (pcStep s b).command_index = 0 := by
    simp only [pcStep]
    split
    · exact (execute_frame _).2.2.2.1
    · rfl
  constructor
  · rw [hidx]
    exact Nat.zero_le _
  · rw [hsize]
    exact args_size_le b

/-- Command-mode chunks preserve the accumulator invariant. -/
theorem pc_inv : ∀ (bs : List Nat) (s : Chip), ChipInv s →
    ChipInv (List.foldl pcStep s bs) := by
  intro bs
  induction bs with
  | nil => intro s h; exact h
  | cons b rest ih =>
    intro s h
    rw [List.foldl_cons]
    exact ih (pcStep s b) (pcStep_inv s b)

/-- One argument byte preserves the invariant and stores only below 16. -/
theorem pcaStep_inv (p : Chip × List Nat) (b : Nat) (h : ChipInv p.1) :
    ChipInv (pcaStep p b).1 ∧ ∀ i ∈ (pcaStep p b).2, i ∈ p.2 ∨ i < 16 := by
  simp only [pcaStep]
  split
  · rename_i hlt
    constructor
    · have hinv : ChipInv { p.1 with
          command_buf := Function.update p.1.command_buf p.1.command_index b,
          command_index := p.1.command_index + 1 } := by
        unfold ChipInv at h ⊢
        dsimp only
        omega
      dsimp only
      split
      · rename_i hexec
        obtain ⟨e1, e2, e3, e4, e5, e6, e7⟩ := execute_frame
          { p.1 with
            command_buf := Function.update p.1.command_buf p.1.command_index b,
            command_index := p.1.command_index + 1 }
        unfold ChipInv at hinv ⊢
        rw [e3, e4]
        exact hinv
      · exact hinv
    · intro i hi
      dsimp only at hi
      rcases List.mem_append.mp hi with hl | hr
      · exact Or.inl hl
      · have : i = p.1.command_index := by simpa using hr
        unfold ChipInv at h
        omega
  · exact ⟨h, fun i hi => Or.inl hi⟩

/-- Argument chunks preserve the invariant; all stores are below 16. -/
theorem pca_inv : ∀ (bs : List Nat) (p : Chip × List Nat), ChipInv p.1 →
    (∀ i ∈ p.2, i < 16) →
    ChipInv (List.foldl pcaStep p bs).1 ∧
    ∀ i ∈ (List.foldl pcaStep p bs).2, i < 16 := by
  intro bs
  induction bs with
  | nil => intro p h hs; exact ⟨h, hs⟩
  | cons b rest ih =>
    intro p h hs
    rw [List.foldl_cons]
    obtain ⟨h', hs'⟩ := pcaStep_inv p b h
    refine ih (pcaStep p b) h' ?_
    intro i hi
    rcases hs' i hi with hl | hr
    · exact hs i hl
    · exact hr

/-- The pixel writer never touches the command accumulator. -/
theorem pd_cmd : ∀ (bs : List Nat) (p : Chip × List (Nat × Nat)),
    (List.foldl pdStep p bs).1.command_index = p.1.command_index ∧
    (List.foldl pdStep p bs).1.command_size = p.1.command_size := by
  intro bs
  induction bs with
  | nil => intro p; exact ⟨rfl, rfl⟩
  | cons b rest ih =>
    intro p
    rw [List.foldl_cons]
    obtain ⟨i1, i2⟩ := ih (pdStep p b)
    have hpd : (pdStep p b).1 = advance_cursor p.1 := rfl
    obtain ⟨f1, f2, f3, f4, f5, f6, f7, f8, f9, f10, f11, f12, f13⟩ :=
      advance_frame p.1
    constructor
    · rw [i1, hpd, f4]
    · rw [i2, hpd, f3]

/-- A delivered chunk preserves the invariant; its stores are below 16. -/
theorem spi_inv (bs : List Nat) (c : Chip) (h : ChipInv c) :
    ChipInv (chip_spi_done bs c).1 ∧
    ∀ i ∈ (chip_spi_done bs c).2.2, i < 16 := by
  unfold chip_spi_done
  split
  · exact ⟨h, by simp⟩
  · split
    · split
      · refine ⟨?_, by simp⟩
        obtain ⟨i1, i2⟩ := pd_cmd (to_samples bs) (c, [])
        unfold ChipInv at h ⊢
        unfold process_data
        rw [i1, i2]
        exact h
      · exact pca_inv bs (c, []) h (by simp)
    · exact ⟨pc_inv bs _ ⟨h.1, h.2⟩, by simp⟩

/-- Every event sequence preserves the invariant and the store bound. -/
theorem run_inv : ∀ (es : List Ev) (st : Sys), ChipInv st.chip →
    (∀ i ∈ st.stores, i < 16) →
    ChipInv (List.foldl evStep st es).chip ∧
    ∀ i ∈ (List.foldl evStep st es).stores, i < 16 := by
  intro es
  induction es with
  | nil => intro st h hs; exact ⟨h, hs⟩
  | cons e rest ih =>
    intro st h hs
    rw [List.foldl_cons]
    cases e with
    | chunk bs =>
      obtain ⟨h', hs'⟩ := spi_inv bs st.chip h
      refine ih _ h' ?_
      intro i hi
      rcases List.mem_append.mp hi with hl | hr
      · exact hs i hl
      · exact hs' i hr
    | setMode m => exact ih _ ⟨h.1, h.2⟩ hs
    | reset => exact ih _ ⟨h.1, h.2⟩ hs

/-- Once the received count has reached the expected count, further
argument bytes change nothing and store nothing. -/
theorem pca_stuck : ∀ (bs : List Nat) (x : Chip) (t : List Nat),
    ¬ x.command_index < x.command_size →
    List.foldl pcaStep (x, t) bs = (x, t) := by
  intro bs
  induction bs with
  | nil => intro x t _; rfl
  | cons b rest ih =>
    intro x t hx
    rw [List.foldl_cons]
    have hstep : pcaStep (x, t) b = (x, t) := by
      simp only [pcaStep]
      rw [if_neg hx]
    rw [hstep]
    exact ih x t hx

/-- Claim C10: from the initialized chip, for every sequence of delivered
chunks, mode switches and resets, the received-argument index never exceeds
the expected count, which is at most 4; every store into the 16-byte
parameter buffer is at an index below 16; and feeding further data-mode
bytes to a completed accumulation (index = expected count) writes nothing
into the buffer and leaves the state unchanged. -/
theorem c10_accumulator_safety (w h : Nat) (es : List Ev) (s : Chip)
    (bs : List Nat) :
    (run_events es (chip_init w h)).chip.command_index
      ≤ (run_events es (chip_init w h)).chip.command_size ∧
    (run_events es (chip_init w h)).chip.command_size ≤ 4 ∧
    (∀ i ∈ (run_events es (chip_init w h)).stores, i < 16) ∧
    process_command_args bs (set_index s s.command_size)
      = (set_index s s.command_size, []) := by
  have hinit : ChipInv (chip_init w h) := ⟨Nat.le_refl 0, by
    show (0 : Nat) ≤ 4
    omega⟩
  obtain ⟨⟨hi1, hi2⟩, hst⟩ := run_inv es
    { chip := chip_init w h, fb := [], stores := [] } hinit (by simp)
  refine ⟨hi1, hi2, hst, ?_⟩
  unfold process_command_args
  exact pca_stuck bs (set_index s s.command_size) []
    (by unfold set_index; dsimp only; omega)

/-- Witness for claim C10's theorem on a one-chunk event sequence. -/
theorem c10_witness :
    (run_events [Ev.chunk [42]] (chip_init 2 2)).chip.command_index
      ≤ (run_events [Ev.chunk [42]] (chip_init 2 2)).chip.command_size ∧
    (run_events [Ev.chunk [42]] (chip_init 2 2)).chip.command_size ≤ 4 ∧
    (∀ i ∈ (run_events [Ev.chunk [42]] (chip_init 2 2)).stores, i < 16) ∧
    process_command_args [9] (set_index base_chip base_chip.command_size)
      = (set_index base_chip base_chip.command_size, []) :=
  c10_accumulator_safety 2 2 [Ev.chunk [42]] base_chip [9]
